import Mathlib

/-!
Verification of the press-release processing module (`src/lib/press_release.py`).

Python strings are modelled as `List Char` (Python indexes strings by code
point, which matches positional `take`/`drop` on the character list).
Python dictionaries are modelled as association lists in insertion order,
where inserting an existing key updates it in place (Python 3.7+ dict
semantics).
-/

set_option maxRecDepth 10000

abbrev LC := List Char

/-- Boolean list-prefix test (first argument is the candidate leading part). -/
def lcLeads : LC → LC → Bool
  | [], _ => true
  | _ :: _, [] => false
  | a :: as, b :: bs => a = b && lcLeads as bs

/-- Python substring containment `needle in hay`. -/
def pyIn (needle hay : LC) : Bool :=
  match hay with
  | [] => lcLeads needle []
  | _ :: t => lcLeads needle hay || pyIn needle t

/-- Python `hay.find(needle)`: index of the first occurrence, `none` for the
source's `-1`. -/
def findSub (hay needle : LC) : Option Nat :=
  match hay with
  | [] => if lcLeads needle [] then some 0 else none
  | _ :: t =>
      if lcLeads needle hay then some 0
      else (findSub t needle).map (fun i => i + 1)

/-- Characters stripped by Python `str.strip()` (ASCII whitespace; the
source documents use only ASCII whitespace). -/
def isPySpace (c : Char) : Bool :=
  c = ' ' || c = '\t' || c = '\n' || c = '\r' || c = '\x0b' || c = '\x0c'

/-- Python `str.strip()`. -/
def pyStrip (s : LC) : LC :=
  ((s.dropWhile isPySpace).reverse.dropWhile isPySpace).reverse

/-- Python `str.lower()` (ASCII case folding; file names in this repository
are ASCII). -/
def pyLower (s : LC) : LC := s.map Char.toLower

/-- Python `str.split(sep)` for a one-character separator: the list of
segments between occurrences of `c`. -/
def pySplitChar (c : Char) : LC → List LC
  | [] => [[]]
  | x :: xs =>
      if x = c then [] :: pySplitChar c xs
      else (x :: (pySplitChar c xs).headI) :: (pySplitChar c xs).tail

/-- `clean_url` (src/lib/press_release.py lines 60-66): remove tracking
parameters, i.e. keep only the part of the URL before the first `?`. -/
def clean_url (url : LC) : LC :=
  if url = [] then url
  else if url.contains '?' then (pySplitChar '?' url).headI
  else url

theorem pySplitChar_ne_nil (c : Char) (l : LC) : pySplitChar c l ≠ [] := by
  cases l with
  | nil => simp [pySplitChar]
  | cons x xs => simp only [pySplitChar]; split <;> simp

theorem pySplitChar_headI (c : Char) (l : LC) :
    (pySplitChar c l).headI = l.takeWhile (fun x => x != c) := by
  induction l with
  | nil => simp [pySplitChar]
  | cons x xs ih =>
      by_cases h : x = c
      · simp [pySplitChar, h, List.takeWhile_cons]
      · simp [pySplitChar, h, List.takeWhile_cons, ih]

/-- `clean_url` agrees with "truncate at the first question mark". -/
theorem clean_url_eq_takeWhile (url : LC) :
    clean_url url = url.takeWhile (fun x => x != '?') := by
  unfold clean_url
  split
  · simp_all
  · split
    · exact pySplitChar_headI _ _
    · rename_i hne hc
      refine (List.takeWhile_eq_self_iff.mpr ?_).symm
      intro x hx
      simp only [bne_iff_ne, ne_eq, decide_eq_true_eq]
      intro hq
      subst hq
      exact absurd (by simpa using hx) (by simpa using hc)

theorem not_mem_takeWhile_bne (c : Char) (l : LC) :
    c ∉ l.takeWhile (fun x => x != c) := by
  intro h
  have := List.mem_takeWhile_imp h
  simp at this

/-- C10: the output of `clean_url` never contains a `?` character, and
`clean_url` is idempotent: cleaning an already-cleaned URL is a no-op. -/
theorem clean_url_query_free_and_idem (u : LC) :
    '?' ∉ clean_url u ∧ clean_url (clean_url u) = clean_url u := by
  have hq : '?' ∉ clean_url u := by
    rw [clean_url_eq_takeWhile]
    exact not_mem_takeWhile_bne _ _
  refine ⟨hq, ?_⟩
  rw [clean_url_eq_takeWhile (clean_url u)]
  apply List.takeWhile_eq_self_iff.mpr
  intro x hx
  simp only [bne_iff_ne, ne_eq, decide_eq_true_eq]
  intro hq2
  subst hq2
  exact hq hx

/-!
## Paragraph Renderer (`get_paragraph_html`, src/lib/press_release.py 92-123)

A hyperlink candidate is `(pos, length, link_text, url)` as in the source.
-/

abbrev Cand := Nat × Nat × LC × LC

/-- Insertion-order dictionary update (Python dict assignment `d[k] = v`):
an existing key is overwritten in place, a new key is appended. -/
def dictInsert {β : Type} (d : List (LC × β)) (k : LC) (v : β) :
    List (LC × β) :=
  if d.any (fun kv => kv.1 = k) then
    d.map (fun kv => if kv.1 = k then (k, v) else kv)
  else d ++ [(k, v)]

/-- The candidate list built by the first loop of `get_paragraph_html`
(lines 98-102): for each `(link_text, url)` of the hyperlink dict in
insertion order, the first occurrence of `link_text` in `text`, skipping
link texts that do not occur. -/
def linkPositions (text : LC) (hyperlinks : List (LC × LC)) : List Cand :=
  hyperlinks.filterMap (fun lu =>
    (findSub text lu.1).map (fun pos => (pos, lu.1.length, lu.1, lu.2)))

/-- Sort key of line 104: descending position, then descending length.
`candBefore a b` holds when `a` must come no later than `b`. -/
def candBefore (a b : Cand) : Bool :=
  b.1 < a.1 || (a.1 == b.1 && b.2.1 ≤ a.2.1)

/-- Stable insertion into a sorted candidate list (an element is placed
before the first element it is `candBefore`; ties keep original order,
matching Python's stable `list.sort`). -/
def insertCand (a : Cand) : List Cand → List Cand
  | [] => [a]
  | b :: bs => if candBefore a b then a :: b :: bs else b :: insertCand a bs

/-- Stable sort by `(-position, -length)` as in line 104. -/
def sortCands : List Cand → List Cand
  | [] => []
  | a :: as => insertCand a (sortCands as)

/-- The anchor tag spliced in at line 117 (`clean_url` applied to the href). -/
def anchorHtml (link_text url : LC) : LC :=
  "<a href=\"".toList ++ clean_url url ++ "\" target=\"_blank\">".toList
    ++ link_text ++ "</a>".toList

/-- Overlap test of lines 109-113: candidate `(pos, length)` against a
claimed range `(start, end)`. -/
def candOverlaps (pos length : Nat) (r : Nat × Nat) : Bool :=
  !(pos + length ≤ r.1 || r.2 ≤ pos)

/-- The main splice loop of lines 108-119: walk the sorted candidates,
skip one whose range overlaps a claimed range, otherwise splice the anchor
tag into the working text at the original offset and claim the range.
Returns the final working text and the claimed ranges. -/
def spliceLoop : List Cand → List (Nat × Nat) → LC → LC × List (Nat × Nat)
  | [], ranges, working => (working, ranges)
  | (pos, length, link_text, url) :: rest, ranges, working =>
      if ranges.any (candOverlaps pos length) then
        spliceLoop rest ranges working
      else
        spliceLoop rest (ranges ++ [(pos, pos + length)])
          (working.take pos ++ anchorHtml link_text url
            ++ working.drop (pos + length))

/-- The claimed ranges produced by a full renderer run on `text` with
hyperlink dict `hyperlinks`. -/
def claimedRanges (text : LC) (hyperlinks : List (LC × LC)) : List (Nat × Nat) :=
  (spliceLoop (sortCands (linkPositions text hyperlinks)) [] text).2

/-- `get_paragraph_html` body for a given text and hyperlink dict
(lines 94-123; `include_links` and the hyperlink extraction from the
paragraph are handled at the call sites below). -/
def renderText (text : LC) (hyperlinks : List (LC × LC)) : LC :=
  if hyperlinks = [] then text
  else (spliceLoop (sortCands (linkPositions text hyperlinks)) [] text).1

/-- Two claimed ranges are non-overlapping. -/
def rangesDisjoint (a b : Nat × Nat) : Prop := a.2 ≤ b.1 ∨ b.2 ≤ a.1

theorem not_candOverlaps_disjoint {pos length : Nat} {r : Nat × Nat}
    (h : candOverlaps pos length r = false) :
    rangesDisjoint r (pos, pos + length) := by
  simp only [candOverlaps, Bool.not_eq_false', Bool.or_eq_true, decide_eq_true_eq] at h
  rcases h with h | h
  · exact Or.inr h
  · exact Or.inl h

theorem spliceLoop_ranges_disjoint (cands : List Cand) (ranges : List (Nat × Nat))
    (working : LC) (h : List.Pairwise rangesDisjoint ranges) :
    List.Pairwise rangesDisjoint (spliceLoop cands ranges working).2 := by
  induction cands generalizing ranges working with
  | nil => simpa [spliceLoop] using h
  | cons c rest ih =>
      obtain ⟨pos, length, link_text, url⟩ := c
      simp only [spliceLoop]
      split
      · exact ih ranges working h
      · rename_i hov
        apply ih
        rw [List.pairwise_append]
        refine ⟨h, by simp, ?_⟩
        intro a ha b hb
        simp only [List.mem_singleton] at hb
        subst hb
        have : candOverlaps pos length a = false := by
          by_contra hc
          exact hov (List.any_eq_true.mpr ⟨a, ha, by simpa using hc⟩)
        exact not_candOverlaps_disjoint this

theorem spliceLoop_take (cands : List Cand) (ranges : List (Nat × Nat))
    (working : LC) (p : Nat) (hc : ∀ c ∈ cands, p ≤ c.1)
    (hl : p ≤ working.length) :
    ((spliceLoop cands ranges working).1).take p = working.take p := by
  induction cands generalizing ranges working with
  | nil => simp [spliceLoop]
  | cons c rest ih =>
      obtain ⟨pos, length, link_text, url⟩ := c
      have hp : p ≤ pos := hc _ (List.mem_cons_self _ _)
      simp only [spliceLoop]
      split
      · exact ih ranges working (fun c h => hc c (List.mem_cons_of_mem _ h)) hl
      · set w2 : LC := working.take pos ++ anchorHtml link_text url
          ++ working.drop (pos + length) with hw2
        have htk : (working.take pos).length = min pos working.length := by
          simp
        have hple : p ≤ (working.take pos).length := by
          rw [htk]; exact le_min hp hl
        have hw2take : w2.take p = working.take p := by
          rw [hw2, List.append_assoc, List.take_append_of_le_length hple,
            List.take_take]
          congr 1
          omega
        have hw2len : p ≤ w2.length := by
          rw [hw2]
          calc p ≤ (working.take pos).length := hple
            _ ≤ _ := by simp only [List.append_assoc, List.length_append]; omega
        rw [ih _ w2 (fun c h => hc c (List.mem_cons_of_mem _ h)) hw2len, hw2take]

theorem findSub_le_length (hay needle : LC) (i : Nat)
    (h : findSub hay needle = some i) : i ≤ hay.length := by
  induction hay generalizing i with
  | nil =>
      simp only [findSub] at h
      split at h
      · simp_all
      · simp_all
  | cons a t ih =>
      simp only [findSub] at h
      split at h
      · simp only [Option.some.injEq] at h
        omega
      · simp only [Option.map_eq_some'] at h
        obtain ⟨j, hj, rfl⟩ := h
        have := ih j hj
        simp only [List.length_cons]
        omega

theorem linkPositions_pos_le (text : LC) (hyperlinks : List (LC × LC))
    (c : Cand) (h : c ∈ linkPositions text hyperlinks) : c.1 ≤ text.length := by
  simp only [linkPositions, List.mem_filterMap] at h
  obtain ⟨lu, _, hmap⟩ := h
  simp only [Option.map_eq_some'] at hmap
  obtain ⟨pos, hfind, rfl⟩ := hmap
  exact findSub_le_length _ _ _ hfind

theorem mem_insertCand (a b : Cand) (l : List Cand) :
    b ∈ insertCand a l ↔ b = a ∨ b ∈ l := by
  induction l with
  | nil => simp [insertCand]
  | cons x xs ih =>
      simp only [insertCand]
      split
      · simp
      · simp only [List.mem_cons, ih]
        tauto

theorem mem_sortCands (a : Cand) (l : List Cand) :
    a ∈ sortCands l ↔ a ∈ l := by
  induction l with
  | nil => simp [sortCands]
  | cons x xs ih =>
      simp only [sortCands, mem_insertCand, ih, List.mem_cons]

/-- Dictionary construction of `extract_hyperlinks` (lines 71-89): fold the
`(link_text, target url)` pairs found in the paragraph XML, in document
order, into an insertion-ordered dict, skipping empty link texts; a repeated
link text overwrites (last wins). -/
def buildLinkDict (pairs : List (LC × LC)) : List (LC × LC) :=
  pairs.foldl (fun d lu => if lu.1 = [] then d else dictInsert d lu.1 lu.2) []

/-- C6: the Paragraph Renderer splices anchors only over pairwise
non-overlapping ranges of the original text; the href spliced for a URL is
the URL truncated at its first `?` (`clean_url`); text at offsets below
every candidate range is unchanged by the splicing (candidates are applied
in descending start order); and on the text "See ABC and ABC again" with
two hyperlinks both carrying link text "ABC" exactly one anchor is
produced and the remaining literal "ABC" stays plain text. -/
theorem get_paragraph_html_anchor_splicing :
    (∀ (text : LC) (links : List (LC × LC)),
      List.Pairwise rangesDisjoint (claimedRanges text links)) ∧
    (∀ (text : LC) (links : List (LC × LC)) (p : Nat),
      (∀ c ∈ linkPositions text links, p ≤ c.1) →
      (renderText text links).take p = text.take p) ∧
    (∀ url : LC, clean_url url = url.takeWhile (fun x => x != '?')) ∧
    renderText "See ABC and ABC again".toList
      (buildLinkDict [("ABC".toList, "https://one.example/a?x=1".toList),
        ("ABC".toList, "https://two.example/b?utm=2".toList)]) =
      ("See <a href=\"https://two.example/b\" target=\"_blank\">ABC</a>"
        ++ " and ABC again").toList := by
  refine ⟨?_, ?_, clean_url_eq_takeWhile, by decide⟩
  · intro text links
    exact spliceLoop_ranges_disjoint _ _ _ (by simp)
  · intro text links p h
    by_cases hnil : linkPositions text links = []
    · rw [renderText]
      split
      · rfl
      · rw [hnil]
        simp [sortCands, spliceLoop]
    · obtain ⟨c0, hc0⟩ := List.exists_mem_of_ne_nil _ hnil
      have hl : p ≤ text.length :=
        le_trans (h c0 hc0) (linkPositions_pos_le _ _ _ hc0)
      rw [renderText]
      split
      · rfl
      · exact spliceLoop_take _ _ _ _
          (fun c hc => h c ((mem_sortCands c _).mp hc)) hl

/-- Witness for C6: at the example input with offset 4 (the start of the
single claimed range), the prefix below the spliced range is unchanged. -/
theorem get_paragraph_html_anchor_splicing_witness :
    (renderText "See ABC and ABC again".toList
      (buildLinkDict [("ABC".toList, "https://one.example/a?x=1".toList),
        ("ABC".toList, "https://two.example/b?utm=2".toList)])).take 4 =
      ("See ABC and ABC again".toList).take 4 :=
  get_paragraph_html_anchor_splicing.2.1 _ _ 4 (by decide)

/-!
## Image Normalizer (`convert_png_to_jpg`, src/lib/press_release.py 223-264)

Only the dimension computation is modelled (the image codec is an external
collaborator): `ratio = target_width / img.width` and
`new_height = int(img.height * ratio)` (lines 239-240), with the reported
dimensions `(target_width, new_height)` (line 259).  Python's float
division followed by `int()` truncation is modelled as exact natural
division (truncation toward zero on nonnegative values). -/
def convert_png_to_jpg_dimensions (w h tw : Nat) : Nat × Nat :=
  (tw, h * tw / w)

/-- Counterexample to C7: at source width 1000, height 999, target width
336, the code reports height 335 (truncation), while
`round(999 * 336 / 1000) = round(335.664) = 336`. -/
theorem convert_png_to_jpg_height_truncates_not_rounds :
    (convert_png_to_jpg_dimensions 1000 999 336).2 = 335 ∧
    round ((999 * 336 : ℚ) / 1000) = 336 := by
  constructor
  · decide
  · norm_num [round_eq]

/-- C7 as amended: a successful run reports width exactly `tw` and height
`⌊h * tw / w⌋` (the exact ratio truncated, not rounded). -/
theorem convert_png_to_jpg_dimensions_spec (w h tw : Nat) (_hw : 0 < w) :
    (convert_png_to_jpg_dimensions w h tw).1 = tw ∧
    (convert_png_to_jpg_dimensions w h tw).2 = ⌊((h : ℚ) * tw) / w⌋₊ := by
  refine ⟨rfl, ?_⟩
  have hfd := Nat.floor_div_eq_div (α := ℚ) (h * tw) w
  rw [convert_png_to_jpg_dimensions]
  rw [← hfd]
  norm_num

/-- Witness for the amended C7 at a 3x2 source image. -/
theorem convert_png_to_jpg_dimensions_spec_witness :
    (convert_png_to_jpg_dimensions 3 2 336).1 = 336 ∧
    (convert_png_to_jpg_dimensions 3 2 336).2 = ⌊((2 : ℚ) * 336) / 3⌋₊ :=
  convert_png_to_jpg_dimensions_spec 3 2 336 (by decide)

/-!
## Month folder (`generate_month_folder`, src/lib/press_release.py 271-280)

`datetime.strptime(date_str, "%B %d, %Y")` is modelled from the CPython
`_strptime` regex semantics restricted to ASCII input: a full month name
(case-insensitive), at least one whitespace character, a 1-2 digit day in
1..31, a comma, at least one whitespace character, exactly four digits of
year, end of input; `datetime` construction additionally validates the day
against the month length and the year against `MINYEAR = 1`.  `datetime.now()`
(ambient state) is modelled as an explicit `(year, month)` parameter. -/

def monthNames : List (LC × Nat) :=
  [("january".toList, 1), ("february".toList, 2), ("march".toList, 3),
   ("april".toList, 4), ("may".toList, 5), ("june".toList, 6),
   ("july".toList, 7), ("august".toList, 8), ("september".toList, 9),
   ("october".toList, 10), ("november".toList, 11), ("december".toList, 12)]

def isLeapYear (y : Nat) : Bool :=
  y % 4 = 0 && (y % 100 ≠ 0 || y % 400 = 0)

def daysInMonth (y m : Nat) : Nat :=
  if m = 2 then (if isLeapYear y then 29 else 28)
  else if m = 4 || m = 6 || m = 9 || m = 11 then 30
  else 31

def digitVal (c : Char) : Nat := c.toNat - 48

def natOfDigits (l : LC) : Nat := l.foldl (fun n c => 10 * n + digitVal c) 0

/-- The `%d` directive: 1-2 digits matching `3[01]|[12]\d|0[1-9]|[1-9]`,
longest alternative first; returns the day value and characters consumed. -/
def parseDay : LC → Option (Nat × Nat)
  | a :: b :: _ =>
      if a.isDigit && b.isDigit then
        if (a = '3' && (b = '0' || b = '1')) ||
           ((a = '1' || a = '2') && b.isDigit) ||
           (a = '0' && b.isDigit && b ≠ '0') then
          some (10 * digitVal a + digitVal b, 2)
        else if a.isDigit && a ≠ '0' then some (digitVal a, 1)
        else none
      else if a.isDigit && a ≠ '0' then some (digitVal a, 1)
      else none
  | [a] => if a.isDigit && a ≠ '0' then some (digitVal a, 1) else none
  | [] => none

/-- `datetime.strptime(s, "%B %d, %Y")`, returning `(year, month, day)`. -/
def parseMonthDate (s : LC) : Option (Nat × Nat × Nat) :=
  (monthNames.find? (fun mn => lcLeads mn.1 (pyLower s))).bind (fun mn =>
    let r1 := s.drop mn.1.length
    let sp1 := r1.takeWhile isPySpace
    if sp1 = [] then none
    else
      let r2 := r1.drop sp1.length
      (parseDay r2).bind (fun dk =>
        match r2.drop dk.2 with
        | ',' :: r4 =>
            let sp2 := r4.takeWhile isPySpace
            if sp2 = [] then none
            else
              let r5 := r4.drop sp2.length
              if r5.length = 4 && r5.all (fun c => c.isDigit) then
                let y := natOfDigits r5
                if 1 ≤ y && 1 ≤ dk.1 && dk.1 ≤ daysInMonth y mn.2 then
                  some (y, mn.2, dk.1)
                else none
              else none
        | _ => none))

def natToDec (n : Nat) : LC := (Nat.repr n).toList

/-- Python `f"{m:02d}"` for a nonnegative month number. -/
def pad2 (n : Nat) : LC := if n < 10 then '0' :: natToDec n else natToDec n

/-- The `"YYYY-MM - Mouser"` format of lines 276 and 280. -/
def monthFolderFormat (y m : Nat) : LC :=
  natToDec y ++ "-".toList ++ pad2 m ++ " - Mouser".toList

/-- `generate_month_folder` (lines 271-280): parse the date string when it
is present and non-empty; on any parse failure fall back to the current
date `now`. -/
def generate_month_folder (now : Nat × Nat) (date_str : Option LC) : LC :=
  match date_str with
  | some s =>
      if s = [] then monthFolderFormat now.1 now.2
      else
        match parseMonthDate s with
        | some ymd => monthFolderFormat ymd.1 ymd.2.1
        | none => monthFolderFormat now.1 now.2
  | none => monthFolderFormat now.1 now.2

/-- C9: `generate_month_folder "January 19, 2026"` is `"2026-01 - Mouser"`
independent of the current date, and with an absent or empty date string
the current year and zero-padded month are used in the same
`"YYYY-MM - Mouser"` format (shown both in general and at the concrete
current date March 2025). -/
theorem generate_month_folder_spec :
    (∀ now : Nat × Nat,
      generate_month_folder now (some "January 19, 2026".toList) =
        "2026-01 - Mouser".toList) ∧
    (∀ now : Nat × Nat,
      generate_month_folder now none =
        natToDec now.1 ++ "-".toList ++ pad2 now.2 ++ " - Mouser".toList ∧
      generate_month_folder now (some []) =
        natToDec now.1 ++ "-".toList ++ pad2 now.2 ++ " - Mouser".toList) ∧
    generate_month_folder (2025, 3) none = "2025-03 - Mouser".toList := by
  have hp : parseMonthDate "January 19, 2026".toList = some (2026, 1, 19) := by
    decide
  refine ⟨?_, fun now => ⟨rfl, rfl⟩, by decide⟩
  intro now
  show (if "January 19, 2026".toList = [] then monthFolderFormat now.1 now.2
    else match parseMonthDate "January 19, 2026".toList with
      | some ymd => monthFolderFormat ymd.1 ymd.2.1
      | none => monthFolderFormat now.1 now.2) = "2026-01 - Mouser".toList
  rw [if_neg (by decide), hp]
  exact (by decide : monthFolderFormat 2026 1 = "2026-01 - Mouser".toList)

/-!
## Document Content Extractor (`parse_docx`, src/lib/press_release.py 126-216)

A structural paragraph carries its raw text, its style name (`none` models
a paragraph whose `para.style` is `None`, read as `'Normal'`), its text
runs with italic flags (`run.italic` truthiness modelled as `Bool`), and
the `(link text, target url)` pairs of its resolvable hyperlink elements in
document order (the XML walk of `extract_hyperlinks`, lines 74-85; a
malformed relationship never appears in this list, matching the swallowed
per-hyperlink exception).

The paragraph loop (lines 141-205) is modelled in full by `paraStep`;
`parse_docx` folds it over the document's paragraphs from the initial
state.  The post-pass deriving `meta_description` and `meta_keywords`
(lines 207-214) touches no field any claim refers to and is not modelled.
-/

structure PRun where
  italic : Bool
  text : LC
deriving DecidableEq, Repr

structure Para where
  text : LC
  style : Option LC
  runs : List PRun
  hyperlinks : List (LC × LC)
deriving DecidableEq, Repr

/-- Line 146: `para.style.name if para.style else 'Normal'`. -/
def styleName (p : Para) : LC := p.style.getD "Normal".toList

/-- `extract_hyperlinks` (lines 69-89) as a dict in insertion order. -/
def extract_hyperlinks (p : Para) : List (LC × LC) := buildLinkDict p.hyperlinks

/-- `get_paragraph_html` (lines 92-123) on a structural paragraph. -/
def get_paragraph_html (p : Para) (include_links : Bool) : LC :=
  let hyperlinks := if include_links then extract_hyperlinks p else []
  if !hyperlinks.isEmpty && include_links then
    (spliceLoop (sortCands (linkPositions p.text hyperlinks)) [] p.text).1
  else p.text

inductive SectionState where
  | body
  | about
  | trademarks
deriving DecidableEq, Repr

/-- The mutable extraction state of the loop: the `result` dict fields the
loop writes (lines 130-139) plus `current_section` / `current_about_title`
(lines 141-142). -/
structure ParseState where
  headline : LC
  subheadline : LC
  date : LC
  body_paragraphs : List LC
  about_sections : List (LC × List LC)
  product_link : LC
  current_section : SectionState
  current_about_title : Option LC
deriving DecidableEq, Repr

def initParseState : ParseState :=
  { headline := [], subheadline := [], date := [], body_paragraphs := [],
    about_sections := [], product_link := [], current_section := .body,
    current_about_title := none }

/-- The capitalized month names of the regexes at lines 170 and 194. -/
def monthNamesCap : List LC :=
  ["January".toList, "February".toList, "March".toList, "April".toList,
   "May".toList, "June".toList, "July".toList, "August".toList,
   "September".toList, "October".toList, "November".toList,
   "December".toList]

/-- The regex of line 170, `^(January|...|December)\s+\d`: text starts with
a month name, at least one whitespace character, then a digit. -/
def startsMonthThenDigit (t : LC) : Bool :=
  monthNamesCap.any (fun m =>
    lcLeads m t &&
      (let r := t.drop m.length
       let sp := r.takeWhile isPySpace
       !sp.isEmpty &&
         (match r.drop sp.length with
          | c :: _ => c.isDigit
          | [] => false)))

/-- The date regex of line 194,
`^((January|...|December)\s+\d{1,2},\s+\d{4})`, returning the matched
group: month name, whitespace run, one or two digits (a third digit makes
the match fail, since a comma must follow), comma, whitespace run, the
first four of at least four digits. -/
def matchDate (t : LC) : Option LC :=
  monthNamesCap.findSome? (fun m =>
    if lcLeads m t then
      let r1 := t.drop m.length
      let sp1 := r1.takeWhile isPySpace
      if sp1.isEmpty then none
      else
        let r2 := r1.drop sp1.length
        let ds := r2.takeWhile (fun c => c.isDigit)
        if ds.isEmpty || 2 < ds.length then none
        else
          match r2.drop ds.length with
          | ',' :: r3 =>
              let sp2 := r3.takeWhile isPySpace
              if sp2.isEmpty then none
              else
                let r4 := r3.drop sp2.length
                let ys := r4.takeWhile (fun c => c.isDigit)
                if 4 ≤ ys.length then
                  some (m ++ sp1 ++ ds ++ [','] ++ sp2 ++ ys.take 4)
                else none
          | _ => none
    else none)

/-- Content contribution (lines 185-205): discard in `trademarks`, append
rendered HTML to the current about section in `about` (when the title is
truthy), and in `body` capture the first date match and the first
`mouser.com` `/new/` hyperlink, then append the rendered HTML. -/
def contentStage (st : ParseState) (p : Para) : ParseState :=
  match st.current_section with
  | .trademarks => st
  | .about =>
      match st.current_about_title with
      | some t =>
          if t.isEmpty then st
          else
            { st with about_sections :=
                st.about_sections.map (fun kv =>
                  if kv.1 = t then (kv.1, kv.2 ++ [get_paragraph_html p true])
                  else kv) }
      | none => st
  | .body =>
      { st with
        date :=
          match matchDate (get_paragraph_html p true) with
          | some d => if st.date.isEmpty then d else st.date
          | none => st.date
        product_link :=
          if st.product_link.isEmpty then
            match (extract_hyperlinks p).find? (fun kv =>
                pyIn "mouser.com".toList kv.2 && pyIn "/new/".toList kv.2) with
            | some kv => clean_url kv.2
            | none => st.product_link
          else st.product_link
        body_paragraphs := st.body_paragraphs ++ [get_paragraph_html p true] }

/-- Trademarks transition (lines 181-183): a paragraph containing
`"Trademarks"` with first-level heading style or a `"Trademarks"` text
prefix switches the section to `trademarks` and contributes nothing. -/
def tmStage (st : ParseState) (p : Para) : ParseState :=
  if pyIn "Trademarks".toList (pyStrip p.text) &&
      (styleName p == "Heading 1".toList
        || lcLeads "Trademarks".toList (pyStrip p.text)) then
    { st with current_section := .trademarks }
  else contentStage st p

/-- Section transition (lines 174-179): an `"About "`-prefixed paragraph
opens a new about section (resetting an existing section of the same
title); the `Heading 1` disjunct of the outer condition has no effect of
its own and falls through to the trademarks check. -/
def sectionStage (st : ParseState) (p : Para) : ParseState :=
  if styleName p == "Heading 1".toList
      || lcLeads "About ".toList (pyStrip p.text) then
    if lcLeads "About ".toList (pyStrip p.text) then
      { st with
        current_section := SectionState.about
        current_about_title := some (pyStrip p.text)
        about_sections := dictInsert st.about_sections (pyStrip p.text) [] }
    else tmStage st p
  else tmStage st p

/-- Subheadline capture (lines 164-172), applicable only while the headline
is set, the subheadline is not, and no body paragraph exists: a `Subtitle`
paragraph captures verbatim; otherwise an italic paragraph under 200
characters that differs from the headline captures unless it starts with a
month name followed by a digit. -/
def subhlStage (st : ParseState) (p : Para) : ParseState :=
  if !st.headline.isEmpty && st.subheadline.isEmpty
      && st.body_paragraphs.isEmpty then
    if styleName p == "Subtitle".toList then
      { st with subheadline := pyStrip p.text }
    else
      if (p.runs.any (fun r => !(pyStrip r.text).isEmpty && r.italic))
          && (pyStrip p.text).length < 200
          && pyStrip p.text != st.headline then
        if !startsMonthThenDigit (pyStrip p.text) then
          { st with subheadline := pyStrip p.text }
        else sectionStage st p
      else sectionStage st p
  else sectionStage st p

/-- One iteration of the paragraph loop (lines 144-205). -/
def paraStep (st : ParseState) (p : Para) : ParseState :=
  if (pyStrip p.text).isEmpty then st
  else if pyStrip p.text = "– 30 –".toList
      ∨ pyStrip p.text = "- 30 -".toList then st
  else if styleName p = "Title".toList
      ∨ (styleName p = "Title2".toList ∧ st.headline = []) then
    if pyIn "New Product Announcement".toList (pyStrip p.text) then st
    else { st with headline := pyStrip p.text }
  else if st.headline = []
      ∧ (styleName p = "Title".toList ∨ styleName p = "Heading 1".toList)
      ∧ 20 < (pyStrip p.text).length then
    { st with headline := pyStrip p.text }
  else subhlStage st p

/-- `parse_docx` (lines 126-216): fold the loop over the document's
paragraphs. -/
def parse_docx (paras : List Para) : ParseState :=
  paras.foldl paraStep initParseState

theorem contentStage_headline (st : ParseState) (p : Para) :
    (contentStage st p).headline = st.headline := by
  unfold contentStage
  split
  · rfl
  · split
    · split <;> rfl
    · rfl
  · rfl

theorem tmStage_headline (st : ParseState) (p : Para) :
    (tmStage st p).headline = st.headline := by
  unfold tmStage
  split
  · rfl
  · exact contentStage_headline st p

theorem sectionStage_headline (st : ParseState) (p : Para) :
    (sectionStage st p).headline = st.headline := by
  unfold sectionStage
  split
  · split
    · rfl
    · exact tmStage_headline st p
  · exact tmStage_headline st p

theorem subhlStage_headline (st : ParseState) (p : Para) :
    (subhlStage st p).headline = st.headline := by
  unfold subhlStage
  split
  · split
    · rfl
    · split
      · split
        · rfl
        · exact sectionStage_headline st p
      · exact sectionStage_headline st p
  · exact sectionStage_headline st p

theorem contentStage_section (st : ParseState) (p : Para) :
    (contentStage st p).current_section = st.current_section := by
  unfold contentStage
  split
  · rfl
  · split
    · split <;> rfl
    · rfl
  · rfl

theorem tmStage_section (st : ParseState) (p : Para) :
    (tmStage st p).current_section = st.current_section ∨
    (tmStage st p).current_section = SectionState.trademarks := by
  unfold tmStage
  split
  · exact Or.inr rfl
  · exact Or.inl (contentStage_section st p)

theorem sectionStage_section (st : ParseState) (p : Para) :
    (sectionStage st p).current_section = st.current_section ∨
    (sectionStage st p).current_section = SectionState.about ∨
    (sectionStage st p).current_section = SectionState.trademarks := by
  unfold sectionStage
  split
  · split
    · exact Or.inr (Or.inl rfl)
    · rcases tmStage_section st p with h | h
      · exact Or.inl h
      · exact Or.inr (Or.inr h)
  · rcases tmStage_section st p with h | h
    · exact Or.inl h
    · exact Or.inr (Or.inr h)

theorem subhlStage_section (st : ParseState) (p : Para) :
    (subhlStage st p).current_section = st.current_section ∨
    (subhlStage st p).current_section = SectionState.about ∨
    (subhlStage st p).current_section = SectionState.trademarks := by
  unfold subhlStage
  split
  · split
    · exact Or.inl rfl
    · split
      · split
        · exact Or.inl rfl
        · exact sectionStage_section st p
      · exact sectionStage_section st p
  · exact sectionStage_section st p

theorem paraStep_section_cases (st : ParseState) (p : Para) :
    (paraStep st p).current_section = st.current_section ∨
    (paraStep st p).current_section = SectionState.about ∨
    (paraStep st p).current_section = SectionState.trademarks := by
  unfold paraStep
  split
  · exact Or.inl rfl
  · split
    · exact Or.inl rfl
    · split
      · split <;> exact Or.inl rfl
      · split
        · exact Or.inl rfl
        · exact subhlStage_section st p

theorem contentStage_body_of_ne (st : ParseState) (p : Para)
    (h : st.current_section ≠ SectionState.body) :
    (contentStage st p).body_paragraphs = st.body_paragraphs := by
  unfold contentStage
  split
  · rfl
  · split
    · split <;> rfl
    · rfl
  · rename_i heq
    exact absurd heq h

theorem tmStage_body_of_ne (st : ParseState) (p : Para)
    (h : st.current_section ≠ SectionState.body) :
    (tmStage st p).body_paragraphs = st.body_paragraphs := by
  unfold tmStage
  split
  · rfl
  · exact contentStage_body_of_ne st p h

theorem sectionStage_body_of_ne (st : ParseState) (p : Para)
    (h : st.current_section ≠ SectionState.body) :
    (sectionStage st p).body_paragraphs = st.body_paragraphs := by
  unfold sectionStage
  split
  · split
    · rfl
    · exact tmStage_body_of_ne st p h
  · exact tmStage_body_of_ne st p h

theorem subhlStage_body_of_ne (st : ParseState) (p : Para)
    (h : st.current_section ≠ SectionState.body) :
    (subhlStage st p).body_paragraphs = st.body_paragraphs := by
  unfold subhlStage
  split
  · split
    · rfl
    · split
      · split
        · rfl
        · exact sectionStage_body_of_ne st p h
      · exact sectionStage_body_of_ne st p h
  · exact sectionStage_body_of_ne st p h

theorem paraStep_body_of_ne (st : ParseState) (p : Para)
    (h : st.current_section ≠ SectionState.body) :
    (paraStep st p).body_paragraphs = st.body_paragraphs ∧
    (paraStep st p).current_section ≠ SectionState.body := by
  constructor
  · unfold paraStep
    split
    · rfl
    · split
      · rfl
      · split
        · split <;> rfl
        · split
          · rfl
          · exact subhlStage_body_of_ne st p h
  · rcases paraStep_section_cases st p with hc | hc | hc
    · rw [hc]; exact h
    · rw [hc]; simp
    · rw [hc]; simp

/-- Counterexample to C1: two `Title`-styled paragraphs; the second
overwrites the headline captured from the first (line 154 has no
headline-unset guard for the `Title` style), so the first qualifying
paragraph does not win. -/
theorem headline_overwritten_counterexample :
    (parse_docx
      [⟨"Mouser Announces the Widget Platform".toList, some "Title".toList,
        [], []⟩]).headline = "Mouser Announces the Widget Platform".toList ∧
    (parse_docx
      [⟨"Mouser Announces the Widget Platform".toList, some "Title".toList,
        [], []⟩,
       ⟨"A Completely Different Headline".toList, some "Title".toList,
        [], []⟩]).headline = "A Completely Different Headline".toList := by
  decide

/-- C1 as amended: an already-set headline is changed only by a later
`Title`-styled paragraph not containing "New Product Announcement", which
overwrites it with its stripped text; paragraphs of every other style
leave a set headline unchanged. -/
theorem headline_changed_only_by_title (st : ParseState) (p : Para)
    (h1 : st.headline ≠ [])
    (h2 : (paraStep st p).headline ≠ st.headline) :
    styleName p = "Title".toList ∧
    pyIn "New Product Announcement".toList (pyStrip p.text) = false ∧
    (paraStep st p).headline = pyStrip p.text := by
  revert h2
  unfold paraStep
  split
  · intro h2; exact absurd rfl h2
  · split
    · intro h2; exact absurd rfl h2
    · split
      · rename_i ht
        split
        · intro h2; exact absurd rfl h2
        · rename_i hnpa
          intro h2
          refine ⟨?_, ?_, rfl⟩
          · rcases ht with h | h
            · exact h
            · exact absurd h.2 h1
          · exact Bool.eq_false_iff.mpr hnpa
      · split
        · rename_i hcond
          intro h2
          exact absurd hcond.1 h1
        · intro h2
          exact absurd (subhlStage_headline st p) h2

/-- Witness for the amended C1: a second `Title` paragraph changes the
already-set headline to its own stripped text, and is `Title`-styled. -/
theorem headline_changed_only_by_title_witness :
    styleName ⟨"A Completely Different Headline".toList, some "Title".toList,
      [], []⟩ = "Title".toList ∧
    pyIn "New Product Announcement".toList
      (pyStrip "A Completely Different Headline".toList) = false ∧
    (paraStep
      { initParseState with
          headline := "Mouser Announces the Widget Platform".toList }
      ⟨"A Completely Different Headline".toList, some "Title".toList,
        [], []⟩).headline =
      pyStrip "A Completely Different Headline".toList :=
  headline_changed_only_by_title
    { initParseState with
        headline := "Mouser Announces the Widget Platform".toList }
    ⟨"A Completely Different Headline".toList, some "Title".toList, [], []⟩
    (by decide) (by decide)

/-- Counterexample to C2: a `Heading 1` paragraph with no `About ` prefix
and no "Trademarks" occurrence does not transition to `trademarks`; it is
rendered into `body_paragraphs` and the state stays `body`. -/
theorem heading1_not_trademarks_counterexample :
    (parse_docx
      [⟨"Mouser Announces the Widget Platform".toList, some "Title".toList,
        [], []⟩,
       ⟨"Ordering Information".toList, some "Heading 1".toList,
        [], []⟩]).current_section = SectionState.body ∧
    (parse_docx
      [⟨"Mouser Announces the Widget Platform".toList, some "Title".toList,
        [], []⟩,
       ⟨"Ordering Information".toList, some "Heading 1".toList,
        [], []⟩]).body_paragraphs = ["Ordering Information".toList] := by
  decide

/-- C2 as amended: for a paragraph that reaches the section-transition
logic (it is not consumed by the headline or subheadline stages, stated as
step equalities) and has no `"About "` prefix: if it contains "Trademarks"
and is `Heading 1`-styled or `"Trademarks"`-prefixed, the step only
switches the section to `trademarks` (no content contribution); if it does
not contain "Trademarks" at all, the step performs no trademarks
transition and falls through to content contribution, whatever its style. -/
theorem trademarks_transition_rule (st : ParseState) (p : Para)
    (h1 : paraStep st p = subhlStage st p)
    (h2 : subhlStage st p = sectionStage st p)
    (h3 : lcLeads "About ".toList (pyStrip p.text) = false) :
    (pyIn "Trademarks".toList (pyStrip p.text) = true ∧
      (styleName p = "Heading 1".toList ∨
        lcLeads "Trademarks".toList (pyStrip p.text) = true) →
      paraStep st p = { st with current_section := SectionState.trademarks }) ∧
    (pyIn "Trademarks".toList (pyStrip p.text) = false →
      paraStep st p = contentStage st p) := by
  rw [h1, h2]
  constructor
  · rintro ⟨ha, hb⟩
    have hcond : (pyIn "Trademarks".toList (pyStrip p.text) &&
        (styleName p == "Heading 1".toList
          || lcLeads "Trademarks".toList (pyStrip p.text))) = true := by
      rw [ha]
      simp only [Bool.true_and, Bool.or_eq_true, beq_iff_eq]
      exact hb
    have htm : tmStage st p =
        { st with current_section := SectionState.trademarks } := by
      unfold tmStage
      rw [if_pos hcond]
    unfold sectionStage
    split
    · rw [if_neg (by rw [h3]; simp)]
      exact htm
    · exact htm
  · intro ha
    have htm : tmStage st p = contentStage st p := by
      unfold tmStage
      rw [if_neg (by rw [ha]; simp)]
    unfold sectionStage
    split
    · rw [if_neg (by rw [h3]; simp)]
      exact htm
    · exact htm

/-- Witness for the amended C2: a short `Heading 1` paragraph reading
"Trademarks" transitions the initial state to `trademarks`. -/
theorem trademarks_transition_rule_witness :
    paraStep initParseState
      ⟨"Trademarks".toList, some "Heading 1".toList, [], []⟩ =
      { initParseState with current_section := SectionState.trademarks } :=
  (trademarks_transition_rule initParseState
    ⟨"Trademarks".toList, some "Heading 1".toList, [], []⟩
    (by decide) (by decide) (by decide)).1 (by decide)

/-- Counterexample to C3: a `Heading 1` paragraph longer than 20
characters containing "New Product Announcement" is captured as headline
by the rule of line 160, which has no such exclusion. -/
theorem npa_headline_captured_counterexample :
    pyIn "New Product Announcement".toList
      "New Product Announcement: Gizmo 3000".toList = true ∧
    (parse_docx
      [⟨"New Product Announcement: Gizmo 3000".toList,
        some "Heading 1".toList, [], []⟩]).headline =
      "New Product Announcement: Gizmo 3000".toList := by
  decide

/-- C3 as amended: the "New Product Announcement" exclusion applies only
to the title-class capture rule of line 154: a paragraph taking that
branch with the phrase in its text is skipped entirely (the state is
unchanged).  The heading-style capture rule of line 160 has no such
exclusion (see the counterexample). -/
theorem npa_skipped_in_title_rule (st : ParseState) (p : Para)
    (h1 : styleName p = "Title".toList ∨
      (styleName p = "Title2".toList ∧ st.headline = []))
    (h2 : pyIn "New Product Announcement".toList (pyStrip p.text) = true)
    (h3 : ¬(pyStrip p.text).isEmpty = true)
    (h4 : pyStrip p.text ≠ "– 30 –".toList ∧
      pyStrip p.text ≠ "- 30 -".toList) :
    paraStep st p = st := by
  unfold paraStep
  rw [if_neg h3, if_neg (by rintro (h | h) <;> [exact h4.1 h; exact h4.2 h]),
    if_pos h1, if_pos h2]

/-- Witness for the amended C3: a `Title`-styled paragraph containing the
phrase leaves the state untouched. -/
theorem npa_skipped_in_title_rule_witness :
    paraStep initParseState
      ⟨"New Product Announcement for the Widget".toList,
        some "Title".toList, [], []⟩ = initParseState :=
  npa_skipped_in_title_rule initParseState
    ⟨"New Product Announcement for the Widget".toList,
      some "Title".toList, [], []⟩
    (Or.inl (by decide)) (by decide) (by decide) (by decide)

/-- Counterexample to C4: a "Trademarks"-prefixed paragraph moves the
state from `body` to `trademarks`, and a following `"About "`-prefixed
paragraph moves it from `trademarks` to `about` - a transition the claim
says never occurs. -/
theorem trademarks_to_about_counterexample :
    (parse_docx
      [⟨"Trademarks notice".toList, some "Normal".toList, [], []⟩]
      ).current_section = SectionState.trademarks ∧
    (parse_docx
      [⟨"Trademarks notice".toList, some "Normal".toList, [], []⟩,
       ⟨"About Mouser Electronics".toList, some "Normal".toList, [], []⟩]
      ).current_section = SectionState.about := by
  decide

/-- C4 as amended: every step leaves the section unchanged or sets it to
`about` or `trademarks` (so `trademarks → about` is possible, via an
`"About "`-prefixed paragraph), and the state never returns to `body`:
if the section is `body` after a step it was already `body` before. -/
theorem section_transitions_never_revert_to_body (st : ParseState) (p : Para) :
    ((paraStep st p).current_section = st.current_section ∨
     (paraStep st p).current_section = SectionState.about ∨
     (paraStep st p).current_section = SectionState.trademarks) ∧
    ((paraStep st p).current_section = SectionState.body →
      st.current_section = SectionState.body) := by
  refine ⟨paraStep_section_cases st p, ?_⟩
  intro hb
  rcases paraStep_section_cases st p with h | h | h
  · rw [← h]; exact hb
  · rw [h] at hb; cases hb
  · rw [h] at hb; cases hb

/-- Witness for the amended C4 at a plain body paragraph. -/
theorem section_transitions_never_revert_to_body_witness :
    initParseState.current_section = SectionState.body :=
  (section_transitions_never_revert_to_body initParseState
    ⟨"Hello world".toList, some "Normal".toList, [], []⟩).2 (by decide)

theorem foldl_paraStep_body_of_ne (st : ParseState) (qs : List Para)
    (h : st.current_section ≠ SectionState.body) :
    (qs.foldl paraStep st).body_paragraphs = st.body_paragraphs := by
  induction qs generalizing st with
  | nil => rfl
  | cons q qs ih =>
      obtain ⟨hb, hs⟩ := paraStep_body_of_ne st q h
      simp only [List.foldl_cons]
      rw [ih (paraStep st q) hs, hb]

/-- C5: section state is monotonic away from `body`: once the state after
some prefix of the document is `about` or `trademarks`, processing any
further paragraphs appends nothing to `body_paragraphs`, regardless of
their style or text. -/
theorem parse_docx_body_monotonic (ps qs : List Para)
    (h : (parse_docx ps).current_section ≠ SectionState.body) :
    (parse_docx (ps ++ qs)).body_paragraphs =
      (parse_docx ps).body_paragraphs := by
  unfold parse_docx
  rw [List.foldl_append]
  exact foldl_paraStep_body_of_ne _ qs h

/-- Witness for C5: after a "Trademarks" paragraph, a later plain
paragraph contributes nothing to the body. -/
theorem parse_docx_body_monotonic_witness :
    (parse_docx
      ([⟨"Trademarks".toList, some "Normal".toList, [], []⟩] ++
       [⟨"Later paragraph".toList, some "Normal".toList, [], []⟩])
      ).body_paragraphs =
    (parse_docx
      [⟨"Trademarks".toList, some "Normal".toList, [], []⟩]
      ).body_paragraphs :=
  parse_docx_body_monotonic
    [⟨"Trademarks".toList, some "Normal".toList, [], []⟩]
    [⟨"Later paragraph".toList, some "Normal".toList, [], []⟩]
    (by decide)

/-!
## Folder Processor (`find_files` / `process_press_release`,
src/lib/press_release.py 505-689)

File names are modelled by their base names (the `os.path.join` folder
prefix carries no information here) and the input list holds the regular
files of the folder in `os.listdir` order (the `os.path.isfile` filter is
applied by the caller of the model).  `process_press_release` is modelled
up to its external collaborators: document parsing is an
`Except error paragraphs` outcome, image conversion an
`Except error (width, height)` outcome (a success means the converted JPEG
was written), and the HTML file writes an optional I/O error.  The model
records in `writes` the files written to the folder, in order.  The
preview-URL strings built from the config format template are not
modelled; no claim refers to them.
-/

/-- Python `str.endswith`. -/
def lcEnds (suffix s : LC) : Bool := lcLeads suffix.reverse s.reverse

structure FoundFiles where
  docx : Option LC
  png : Option LC
  pdf : Option LC
  folder_name : LC
deriving DecidableEq, Repr

/-- One iteration of the `find_files` loop (lines 514-531). -/
def findFilesStep (f : FoundFiles) (name : LC) : FoundFiles :=
  if lcEnds ".docx".toList (pyLower name)
      && !(pyIn "instruction".toList (pyLower name)) then
    if f.docx = none ∨ pyIn "publicrelations".toList (pyLower name) then
      { f with docx := some name }
    else f
  else if lcEnds ".png".toList (pyLower name) then { f with png := some name }
  else if lcEnds ".pdf".toList (pyLower name) then
    if !(pyIn "instruction".toList (pyLower name))
        && !(pyIn "order".toList (pyLower name)) then
      if f.pdf = none ∨ pyIn "publicrelations".toList (pyLower name) then
        { f with pdf := some name }
      else f
    else f
  else f

/-- `find_files` (lines 505-533). -/
def find_files (folder_name : LC) (names : List LC) : FoundFiles :=
  names.foldl findFilesStep
    { docx := none, png := none, pdf := none, folder_name := folder_name }

/-- The missing-kind messages built at lines 579-585, in order. -/
def missingKinds (f : FoundFiles) : List LC :=
  (if f.docx = none then ["Word document (.docx)".toList] else []) ++
  (if f.png = none then ["PNG image (.png)".toList] else []) ++
  (if f.pdf = none then ["PDF file (.pdf)".toList] else [])

/-- `os.path.splitext(...)[0]`: drop the final dot-extension. -/
def dropExt (s : LC) : LC :=
  if s.contains '.' then
    ((s.reverse.dropWhile (fun c => c != '.')).drop 1).reverse
  else s

structure ProcessResult where
  success : Bool
  folder_name : Option LC
  files_to_upload : List (LC × LC)
  errors : List LC
  month_folder : Option LC
  writes : List LC
deriving DecidableEq, Repr

/-- `process_press_release` (lines 536-689): validate the folder, locate
the three required files, parse the document, convert the image, render
and write the two HTML files, and assemble the upload manifest. -/
def process_press_release (folder_exists : Bool) (folder_name : LC)
    (names : List LC) (docResult : Except LC (List Para))
    (imgOutcome : Except LC (Nat × Nat)) (htmlError : Option LC)
    (now : Nat × Nat) : ProcessResult :=
  if !folder_exists then
    { success := false, folder_name := none, files_to_upload := [],
      errors := ["Folder not found: ".toList ++ folder_name],
      month_folder := none, writes := [] }
  else
    if missingKinds (find_files folder_name names) ≠ [] then
      { success := false, folder_name := some folder_name,
        files_to_upload := [],
        errors := ["Missing files: ".toList ++
          List.intercalate ", ".toList
            (missingKinds (find_files folder_name names))],
        month_folder := none, writes := [] }
    else
      match docResult with
      | .error e =>
          { success := false, folder_name := some folder_name,
            files_to_upload := [],
            errors := ["Failed to parse Word document: ".toList ++ e],
            month_folder := none, writes := [] }
      | .ok paras =>
          let files := find_files folder_name names
          let jpgName := dropExt (files.png.getD []) ++ ".jpg".toList
          match imgOutcome with
          | .error e =>
              { success := false, folder_name := some folder_name,
                files_to_upload := [],
                errors := ["Failed to process image: ".toList ++ e],
                month_folder := none, writes := [] }
          | .ok _dims =>
              let htmlName := folder_name ++ ".html".toList
              let emailName := folder_name ++ "_email.html".toList
              match htmlError with
              | some e =>
                  { success := false, folder_name := some folder_name,
                    files_to_upload := [],
                    errors := ["Failed to generate HTML: ".toList ++ e],
                    month_folder := none, writes := [jpgName] }
              | none =>
                  { success := true, folder_name := some folder_name,
                    files_to_upload :=
                      [(htmlName, htmlName), (emailName, emailName),
                       (jpgName, jpgName),
                       (files.png.getD [], files.png.getD []),
                       (files.pdf.getD [], files.pdf.getD [])],
                    errors := [],
                    month_folder := some (generate_month_folder now
                      (some (parse_docx paras).date)),
                    writes := [jpgName, htmlName, emailName] }

/-- C8: when any of the three required file kinds is not located in the
folder, processing aborts with `success = false`, exactly one error string
listing exactly the missing kinds, no file written, and an empty upload
manifest. -/
theorem process_missing_files_aborts (folder_name : LC) (names : List LC)
    (docResult : Except LC (List Para)) (imgOutcome : Except LC (Nat × Nat))
    (htmlError : Option LC) (now : Nat × Nat)
    (hmiss : (find_files folder_name names).docx = none ∨
      (find_files folder_name names).png = none ∨
      (find_files folder_name names).pdf = none) :
    (process_press_release true folder_name names docResult imgOutcome
        htmlError now).success = false ∧
    (process_press_release true folder_name names docResult imgOutcome
        htmlError now).errors =
      ["Missing files: ".toList ++ List.intercalate ", ".toList
        (missingKinds (find_files folder_name names))] ∧
    (process_press_release true folder_name names docResult imgOutcome
        htmlError now).writes = [] ∧
    (process_press_release true folder_name names docResult imgOutcome
        htmlError now).files_to_upload = [] := by
  have hne : missingKinds (find_files folder_name names) ≠ [] := by
    unfold missingKinds
    rcases hmiss with h | h | h <;> rw [h] <;> simp
  unfold process_press_release
  rw [if_neg (by simp), if_pos hne]
  exact ⟨rfl, rfl, rfl, rfl⟩

/-- Witness for C8: a folder holding only a Word document and a PNG image
aborts naming the PDF as the one missing kind, with nothing written. -/
theorem process_missing_files_aborts_witness :
    (process_press_release true "2026-01 Widget".toList
        ["release.docx".toList, "photo.png".toList]
        (Except.ok []) (Except.ok (336, 200)) none (2026, 1)).success
      = false ∧
    (process_press_release true "2026-01 Widget".toList
        ["release.docx".toList, "photo.png".toList]
        (Except.ok []) (Except.ok (336, 200)) none (2026, 1)).errors =
      ["Missing files: ".toList ++ List.intercalate ", ".toList
        (missingKinds (find_files "2026-01 Widget".toList
          ["release.docx".toList, "photo.png".toList]))] ∧
    (process_press_release true "2026-01 Widget".toList
        ["release.docx".toList, "photo.png".toList]
        (Except.ok []) (Except.ok (336, 200)) none (2026, 1)).writes
      = [] ∧
    (process_press_release true "2026-01 Widget".toList
        ["release.docx".toList, "photo.png".toList]
        (Except.ok []) (Except.ok (336, 200)) none
        (2026, 1)).files_to_upload = [] :=
  process_missing_files_aborts "2026-01 Widget".toList
    ["release.docx".toList, "photo.png".toList]
    (Except.ok []) (Except.ok (336, 200)) none (2026, 1)
    (by decide)
